import Mathlib

/-!
Verification of the semantic_scholar scraper
(`paperoni/sources/scrapers/semantic_scholar.py`): a shallow embedding of
its normalizer, paginator, field catalog and query entry point, with
theorems settling the spec's claims about them.

JSON-level conventions of the embedding: a raw record is a structure whose
optional or nullable fields are `Option`s (`none` models an absent key or a
JSON `null`, collapsed where the source code treats them alike); dicts
whose iteration order matters are association lists; a Python `KeyError`
or any other exception escaping a conversion is modelled by the conversion
returning `none`.
-/

namespace SemScholar

/-- `VenueType` enumeration of the canonical model (closed per the spec). -/
inductive VenueType where
  | journal
  | conference
  | book
  | review
  | unknown
deriving DecidableEq, Repr

/-- `DatePrecision` qualifier of the canonical model. -/
inductive DatePrecision where
  | unknown
  | year
  | month
  | day
deriving DecidableEq, Repr

/-- Canonical `Link{type, link}` entity. -/
structure Link where
  type : String
  link : String
deriving DecidableEq, Repr

/-- Canonical `Topic{name}` entity. -/
structure Topic where
  name : String
deriving DecidableEq, Repr

/-- Canonical `Venue` entity. -/
structure Venue where
  type : VenueType
  name : String
  volume : Option String
  links : List Link
deriving DecidableEq, Repr

/-- Canonical `Release` entity; the date is kept as the string the scraper
builds (`None` for a null date). -/
structure Release where
  venue : Venue
  date : Option String
  date_precision : DatePrecision
deriving DecidableEq, Repr

/-- Canonical `Author` entity. -/
structure Author where
  name : String
  affiliations : List String
  aliases : List String
  links : List Link
  roles : List String
deriving DecidableEq, Repr

/-- Canonical `Paper` entity. -/
structure Paper where
  links : List Link
  authors : List Author
  title : String
  abstract : String
  citation_count : Int
  topics : List Topic
  releases : List Release
  scrapers : List String
deriving DecidableEq, Repr

/-- A raw author JSON record as `_wrap_author` reads it: `authorId` may be
null, `name` may be missing (its access then raises, modelled by the
conversion failing), `aliases` may be absent or null. -/
structure SSAuthorRecord where
  authorId : Option String
  name : Option String
  aliases : Option (List String)
deriving DecidableEq, Repr

/-- The nested `journal` sub-object (`{"volume": ...}`). -/
structure JournalRecord where
  volume : Option String
deriving DecidableEq, Repr

/-- A raw paper JSON record as `_wrap_paper` reads it. `externalIds` is an
association list (dict in insertion order). `publicationTypes` is `none`
for an absent key or a null value (the source treats both as falsy). -/
structure SSPaperRecord where
  paperId : String
  externalIds : List (String × String)
  title : String
  abstract : Option String
  venue : String
  publicationTypes : Option (List String)
  publicationDate : Option String
  year : Option Int
  journal : Option JournalRecord
  citationCount : Int
  fieldsOfStudy : Option (List String)
  authors : List SSAuthorRecord
deriving DecidableEq, Repr

/-- `external_ids_mapping = {"pubmedcentral": "pmc"}`. -/
def external_ids_mapping : List (String × String) :=
  [("pubmedcentral", "pmc")]

/-- Python's `str.lower()`, as the character-wise `Char.toLower` map over
the string's characters (the id-type keys involved are ASCII). -/
def lowerStr (s : String) : String := ⟨s.data.map Char.toLower⟩

/-- `external_ids_mapping.get(t := typ.lower(), t)`: the link type produced
for an external-id key. -/
def ext_link_type (typ : String) : String :=
  (external_ids_mapping.lookup (lowerStr typ)).getD (lowerStr typ)

/-- `venue_type_mapping` of the source, as an association list (a Python
dict indexed with `[]`, so a missing key raises `KeyError`). -/
def venue_type_mapping : List (String × VenueType) :=
  [("JournalArticle", VenueType.journal),
   ("Conference", VenueType.conference),
   ("Book", VenueType.book),
   ("Review", VenueType.review),
   ("_", VenueType.unknown)]

/-- The key `(pubt := data.get("publicationTypes", [])) and pubt[0] or "_"`:
a falsy list (absent/null/empty) or a falsy first element gives the
sentinel `"_"`, otherwise the first element. -/
def pubt_key (pubt : Option (List String)) : String :=
  match pubt with
  | none => "_"
  | some [] => "_"
  | some (f :: _) => if f = "" then "_" else f

/-- `venue_type_mapping[pubt_key ...]`: `none` models the `KeyError` raised
when the first publication type is not a key of the table. -/
def venue_type_of (pubt : Option (List String)) : Option VenueType :=
  venue_type_mapping.lookup (pubt_key pubt)

/-- Modelled from the spec: `DatePrecision.assimilate_date` lives in
`paperoni/sources/model.py`, which is not part of the sources under
verification; the spec says the fallback is year-only precision derived
from the record's `year` field, and unknown precision with a null date
when the year is itself absent/null. -/
def assimilate_date (year : Option Int) : Option String × DatePrecision :=
  match year with
  | some y => (some (toString y), DatePrecision.year)
  | none => (none, DatePrecision.unknown)

/-- The date/precision computation of `_wrap_paper`: `if pubd :=
data["publicationDate"]` takes the day branch only for a truthy (non-null,
non-empty) string, pinning the time to midnight; otherwise
`DatePrecision.assimilate_date(data["year"])`. -/
def date_of (pubd : Option String) (year : Option Int) :
    Option String × DatePrecision :=
  match pubd with
  | some s =>
      if s = "" then assimilate_date year
      else (some (s ++ " 00:00"), DatePrecision.day)
  | none => assimilate_date year

/-- `SemanticScholarQueryManager._wrap_author`. `data["name"]` raises on a
missing name (conversion fails); a falsy `authorId` (null or empty) yields
no link; `data.get("aliases", None) or []` defaults falsy aliases to `[]`. -/
def wrap_author (d : SSAuthorRecord) : Option Author := do
  let nm ← d.name
  let lnk : Option Link :=
    match d.authorId with
    | some aid => if aid = "" then none else some ⟨"semantic_scholar", aid⟩
    | none => none
  pure
    { name := nm
      affiliations := []
      aliases := d.aliases.getD []
      links := match lnk with | some l => [l] | none => []
      roles := [] }

/-- `list(map(self._wrap_author, data["authors"]))`: converts the nested
author records in order; the first failing conversion aborts the list. -/
def wrap_authors : List SSAuthorRecord → Option (List Author)
  | [] => some []
  | a :: rest => do
    let x ← wrap_author a
    let xs ← wrap_authors rest
    pure (x :: xs)

/-- `SemanticScholarQueryManager._wrap_paper`. The source-native link comes
first, then one link per `externalIds` entry; authors are converted in
order (a failing author conversion fails the paper); the venue type lookup
may raise (`none`); `data["abstract"] or ""` maps falsy abstracts to the
empty string. -/
def wrap_paper (d : SSPaperRecord) : Option Paper := do
  let links :=
    Link.mk "semantic_scholar" d.paperId ::
      d.externalIds.map (fun kv => Link.mk (ext_link_type kv.1) kv.2)
  let authors ← wrap_authors d.authors
  let dp := date_of d.publicationDate d.year
  let vt ← venue_type_of d.publicationTypes
  let release : Release :=
    { venue :=
        { type := vt
          name := d.venue
          volume := d.journal.bind JournalRecord.volume
          links := [] }
      date := dp.1
      date_precision := dp.2 }
  pure
    { links := links
      authors := authors
      title := d.title
      abstract := d.abstract.getD ""
      citation_count := d.citationCount
      topics := (d.fieldsOfStudy.getD []).map Topic.mk
      releases := [release]
      scrapers := ["ssch"] }

/-- One parsed page body, as `_evaluate` sees it after `json.loads`:
`error` is `some msg` when the `"error"` key is present (a `QueryError`
is then raised before anything else is read), `data` is the page's record
array, `next` is the server's cursor for the following page (`none` when
the key is absent or null). -/
structure SSResponse (α : Type) where
  error : Option String
  data : List α
  next : Option Nat
deriving DecidableEq, Repr

/-- The observable outcome of one `_list` call fully consumed by the
caller: the records yielded, the `offset` parameter of each request
issued (in order), and the `QueryError` message if one was raised. -/
structure RunOut (α : Type) where
  yielded : List α
  offsets : List Nat
  failure : Option String
deriving DecidableEq, Repr

/-- The `limit` query parameter `_list` sends on every page:
`min(block_size or 10000, limit)` (a falsy `block_size` defaults to
10000). It is computed once, before the loop. -/
def pageLimit (block_size limit : Nat) : Nat :=
  min (if block_size = 0 then 10000 else block_size) limit

/-- `SemanticScholarQueryManager._list`, run against a server modelled as
the list of responses it returns to successive requests: while
`next_offset` is not null and `< limit`, consume the next response; an
`error` body raises at once (no yield from that page, no later request);
otherwise `next_offset` becomes the body's `next` and the page's `data`
entries are yielded. An exhausted response list while the loop would
continue is a model artifact and ends the run silently. -/
def listRun (limit : Nat) : List (SSResponse α) → Nat → RunOut α
  | [], _ => ⟨[], [], none⟩
  | r :: rest, o =>
    if o < limit then
      match r.error with
      | some msg => ⟨[], [o], some msg⟩
      | none =>
        match r.next with
        | none => ⟨r.data, [o], none⟩
        | some n =>
          let tail := listRun limit rest n
          ⟨r.data ++ tail.yielded, o :: tail.offsets, tail.failure⟩
    else ⟨[], [], none⟩

/-- A well-behaved server trace for requests starting at offset `o`: no
error body, at most `L` records per page, and a `next` cursor equal to
the request's offset plus the number of records returned. -/
def honest (L : Nat) : Nat → List (SSResponse α) → Prop
  | _, [] => True
  | o, r :: rest =>
    r.error = none ∧ r.data.length ≤ L ∧
      ∀ n, r.next = some n → n = o + r.data.length ∧ honest L n rest

/-- Field-path templates: `_paper_long_fields`. -/
def paper_long_fields (parent : Option String) (extras : List String) :
    List String :=
  let fields :=
    ["paperId", "externalIds", "url", "title", "abstract", "venue",
     "publicationTypes", "publicationDate", "year", "journal",
     "referenceCount", "citationCount", "influentialCitationCount",
     "isOpenAccess", "fieldsOfStudy"] ++ extras
  match parent with
  | none => fields
  | some p => fields.map (fun f => p ++ "." ++ f)

/-- `_paper_short_fields`. -/
def paper_short_fields (parent : Option String) : List String :=
  let fields := ["paperId", "url", "title", "venue", "year", "authors"]
  match parent with
  | none => fields
  | some p => fields.map (fun f => p ++ "." ++ f)

/-- `_author_fields`. -/
def author_fields (parent : Option String) : List String :=
  let fields :=
    ["authorId", "externalIds", "url", "name", "aliases", "affiliations",
     "homepage", "paperCount", "citationCount"]
  match parent with
  | none => fields
  | some p => fields.map (fun f => p ++ "." ++ f)

/-- `SEARCH_FIELDS = _paper_long_fields(extras=("authors",))`. -/
def SEARCH_FIELDS : List String := paper_long_fields none ["authors"]

/-- `PAPER_CITATIONS_FIELDS = ("contexts", "intents", "isInfluential",
*SEARCH_FIELDS)`. -/
def PAPER_CITATIONS_FIELDS : List String :=
  ["contexts", "intents", "isInfluential"] ++ SEARCH_FIELDS

/-- `PAPER_REFERENCES_FIELDS = PAPER_CITATIONS_FIELDS`. -/
def PAPER_REFERENCES_FIELDS : List String := PAPER_CITATIONS_FIELDS

/-- The remote call one operation makes: path under `/graph/v1/`, the
`fields` parameter, and the per-page `limit` parameter. -/
structure CallSpec where
  path : String
  fields : List String
  page_limit : Nat
deriving DecidableEq, Repr

/-- `SemanticScholarQueryManager.paper_citations`: paginates
`paper/{paper_id}/citations` with `PAPER_CITATIONS_FIELDS`. The result
pairs the request shape with the fully-consumed pagination outcome. -/
def paper_citations (paper_id : String) (block_size limit : Nat)
    (responses : List (SSResponse α)) : CallSpec × RunOut α :=
  (⟨"paper/" ++ paper_id ++ "/citations", PAPER_CITATIONS_FIELDS,
      pageLimit block_size limit⟩,
    listRun limit responses 0)

/-- `SemanticScholarQueryManager.paper_references`: paginates
`paper/{paper_id}/citations` (the same path) with
`PAPER_REFERENCES_FIELDS`. -/
def paper_references (paper_id : String) (block_size limit : Nat)
    (responses : List (SSResponse α)) : CallSpec × RunOut α :=
  (⟨"paper/" ++ paper_id ++ "/citations", PAPER_REFERENCES_FIELDS,
      pageLimit block_size limit⟩,
    listRun limit responses 0)

/-- What the `query` entry point does before/without consuming results:
whether it raised, whether `SemanticScholarQueryManager()` (and its
connection) was constructed, and the path of the endpoint its chosen
branch paginates (empty when neither branch runs). -/
structure QueryOutcome where
  failure : Option String
  connConstructed : Bool
  requestPaths : List String
deriving DecidableEq, Repr

/-- The `query` entry point: joins the word lists, raises
`QueryError("Cannot query both author and title")` when both joined terms
are truthy — before the manager (and its connection) is constructed —
else constructs the manager and dispatches on title/author. -/
def query (author title : List String) : QueryOutcome :=
  let a := String.intercalate " " author
  let t := String.intercalate " " title
  if a ≠ "" ∧ t ≠ "" then
    ⟨some "Cannot query both author and title", false, []⟩
  else if t ≠ "" then ⟨none, true, ["paper/search"]⟩
  else if a ≠ "" then ⟨none, true, ["author/search"]⟩
  else ⟨none, true, []⟩

/-- The configured inter-request delay of the manager's `HTTPSAcquirer`:
`delay = 5 * 60 / 100` seconds (100 requests per 5 minutes). -/
def configured_delay : ℚ := 5 * 60 / 100

/-- Modelled from the spec: `HTTPSAcquirer` lives in
`paperoni/sources/acquire.py`, which is not part of the sources under
verification; the spec says the connection blocks before each send until
at least `D` seconds have elapsed since the previous request's issuance.
Given the time each request becomes ready, the issuance times: the first
goes out when ready, each later one at `max(ready, previous + D)`. -/
def issueTimesFrom (D : ℚ) : ℚ → List ℚ → List ℚ
  | _, [] => []
  | last, r :: rs => max r (last + D) :: issueTimesFrom D (max r (last + D)) rs

/-- Issuance times of a whole request sequence (first request unchecked). -/
def issueTimes (D : ℚ) : List ℚ → List ℚ
  | [] => []
  | r :: rs => r :: issueTimesFrom D r rs

/-- Shared helper: the explicit shape of any `Paper` that `_wrap_paper`
produces. -/
theorem wrap_paper_shape (d : SSPaperRecord) (p : Paper)
    (h : wrap_paper d = some p) :
    ∃ authors vt,
      wrap_authors d.authors = some authors ∧
      venue_type_of d.publicationTypes = some vt ∧
      p = { links := Link.mk "semantic_scholar" d.paperId ::
              d.externalIds.map (fun kv => Link.mk (ext_link_type kv.1) kv.2)
            authors := authors
            title := d.title
            abstract := d.abstract.getD ""
            citation_count := d.citationCount
            topics := (d.fieldsOfStudy.getD []).map Topic.mk
            releases := [{ venue := { type := vt
                                      name := d.venue
                                      volume := d.journal.bind JournalRecord.volume
                                      links := [] }
                           date := (date_of d.publicationDate d.year).1
                           date_precision := (date_of d.publicationDate d.year).2 }]
            scrapers := ["ssch"] } := by
  cases hA : wrap_authors d.authors with
  | none => simp [wrap_paper, hA] at h
  | some authors =>
    cases hV : venue_type_of d.publicationTypes with
    | none => simp [wrap_paper, hA, hV] at h
    | some vt =>
      refine ⟨authors, vt, rfl, rfl, ?_⟩
      simp [wrap_paper, hA, hV] at h
      exact h.symm

/-- C6: every `Paper` produced by `_wrap_paper` has a non-empty `links`
list (the source-native id link is present), an `abstract` string with
null upstream mapped to the empty string, exactly one entry in
`releases`, and `scrapers` equal to exactly this source's tag `"ssch"`. -/
theorem c6_paper_invariants (d : SSPaperRecord) (p : Paper)
    (h : wrap_paper d = some p) :
    p.links ≠ [] ∧
    p.abstract = d.abstract.getD "" ∧
    (d.abstract = none → p.abstract = "") ∧
    p.releases.length = 1 ∧
    p.scrapers = ["ssch"] := by
  obtain ⟨authors, vt, -, -, rfl⟩ := wrap_paper_shape d p h
  refine ⟨by simp, rfl, ?_, rfl, rfl⟩
  intro hab
  simp [hab]

/-- C6 witness: the invariants hold for a concrete record with a null
abstract. -/
theorem c6_paper_invariants_witness :
    ({ links := [⟨"semantic_scholar", "p0"⟩]
       authors := []
       title := "T"
       abstract := ""
       citation_count := 0
       topics := []
       releases := [{ venue := ⟨VenueType.unknown, "V", none, []⟩
                      date := none
                      date_precision := DatePrecision.unknown }]
       scrapers := ["ssch"] } : Paper).links ≠ [] ∧
    ("" : String) = (none : Option String).getD "" ∧
    ((none : Option String) = none → ("" : String) = "") ∧
    ([({ venue := ⟨VenueType.unknown, "V", none, []⟩
         date := none
         date_precision := DatePrecision.unknown } : Release)].length = 1) ∧
    (["ssch"] : List String) = ["ssch"] := by
  have := c6_paper_invariants
    ⟨"p0", [], "T", none, "V", none, none, none, none, 0, none, []⟩
    { links := [⟨"semantic_scholar", "p0"⟩]
      authors := []
      title := "T"
      abstract := ""
      citation_count := 0
      topics := []
      releases := [{ venue := ⟨VenueType.unknown, "V", none, []⟩
                     date := none
                     date_precision := DatePrecision.unknown }]
      scrapers := ["ssch"] }
    (by decide)
  exact this

/-- C5: the produced `Paper.links` starts with the source-native id link
and continues with one link per `externalIds` entry; a lowercased key
found in `external_ids_mapping` is renamed to the table's alias, any
other key keeps its lowercased original name. -/
theorem c5_links (d : SSPaperRecord) (p : Paper)
    (h : wrap_paper d = some p) :
    p.links = Link.mk "semantic_scholar" d.paperId ::
        d.externalIds.map (fun kv => Link.mk (ext_link_type kv.1) kv.2) ∧
    (∀ k v, external_ids_mapping.lookup (lowerStr k) = some v →
      ext_link_type k = v) ∧
    (∀ k, external_ids_mapping.lookup (lowerStr k) = none →
      ext_link_type k = lowerStr k) := by
  obtain ⟨authors, vt, -, -, rfl⟩ := wrap_paper_shape d p h
  refine ⟨rfl, ?_, ?_⟩
  · intro k v hk
    simp [ext_link_type, hk]
  · intro k hk
    simp [ext_link_type, hk]

/-- C5 witness: a concrete record with a `PubMedCentral` and a `DOI`
external id produces the native link first, then `pmc` and `doi` links. -/
theorem c5_links_witness :
    ([⟨"semantic_scholar", "p5"⟩, ⟨"pmc", "PMC9"⟩, ⟨"doi", "10.1/x"⟩] :
        List Link) =
      Link.mk "semantic_scholar" "p5" ::
        ([("PubMedCentral", "PMC9"), ("DOI", "10.1/x")].map
          (fun kv => Link.mk (ext_link_type kv.1) kv.2)) ∧
    ext_link_type "PubMedCentral" = "pmc" ∧
    ext_link_type "DOI" = "doi" := by
  have h5 := c5_links
    ⟨"p5", [("PubMedCentral", "PMC9"), ("DOI", "10.1/x")], "T", none, "V",
      none, none, none, none, 0, none, []⟩
    { links := [⟨"semantic_scholar", "p5"⟩, ⟨"pmc", "PMC9"⟩,
                ⟨"doi", "10.1/x"⟩]
      authors := []
      title := "T"
      abstract := ""
      citation_count := 0
      topics := []
      releases := [{ venue := ⟨VenueType.unknown, "V", none, []⟩
                     date := none
                     date_precision := DatePrecision.unknown }]
      scrapers := ["ssch"] }
    (by decide)
  refine ⟨h5.1, h5.2.1 "PubMedCentral" "pmc" (by decide), ?_⟩
  have := h5.2.2 "DOI" (by decide)
  rw [this]
  decide

/-- C9: `_wrap_author` fails when the name is missing; otherwise it emits
empty `affiliations` and `roles`, `aliases` defaulting to `[]` when
absent/null and the upstream value otherwise, and a single
`semantic_scholar` link exactly when `authorId` is truthy (non-null and
non-empty). -/
theorem c9_wrap_author (d : SSAuthorRecord) :
    (d.name = none → wrap_author d = none) ∧
    (∀ a, wrap_author d = some a →
      a.affiliations = [] ∧ a.roles = [] ∧
      (d.aliases = none → a.aliases = []) ∧
      (∀ l, d.aliases = some l → a.aliases = l) ∧
      (∀ aid, d.authorId = some aid → aid ≠ "" →
        a.links = [Link.mk "semantic_scholar" aid]) ∧
      ((d.authorId = none ∨ d.authorId = some "") → a.links = [])) := by
  constructor
  · intro hn
    simp [wrap_author, hn]
  · intro a ha
    cases hn : d.name with
    | none => simp [wrap_author, hn] at ha
    | some nm =>
      simp [wrap_author, hn] at ha
      subst ha
      refine ⟨rfl, rfl, ?_, ?_, ?_, ?_⟩
      · intro hal; simp [hal]
      · intro l hal; simp [hal]
      · intro aid hid hne
        simp [hid, hne]
      · rintro (hid | hid) <;> simp [hid]

/-- C9 witness: concrete records — a truthy id gives one link, an absent
name fails the conversion, absent aliases default to `[]`. -/
theorem c9_wrap_author_witness :
    wrap_author ⟨some "A1", none, some ["x"]⟩ = none ∧
    (({ name := "Ada", affiliations := [], aliases := [],
        links := [⟨"semantic_scholar", "A1"⟩], roles := [] } : Author).links =
      [Link.mk "semantic_scholar" "A1"]) ∧
    (({ name := "Ada", affiliations := [], aliases := [],
        links := [⟨"semantic_scholar", "A1"⟩], roles := [] } : Author).aliases = []) := by
  refine ⟨(c9_wrap_author ⟨some "A1", none, some ["x"]⟩).1 rfl, ?_, ?_⟩
  · exact ((c9_wrap_author ⟨some "A1", some "Ada", none⟩).2
      { name := "Ada", affiliations := [], aliases := [],
        links := [⟨"semantic_scholar", "A1"⟩], roles := [] }
      (by decide)).2.2.2.2.1 "A1" rfl (by decide)
  · exact ((c9_wrap_author ⟨some "A1", some "Ada", none⟩).2
      { name := "Ada", affiliations := [], aliases := [],
        links := [⟨"semantic_scholar", "A1"⟩], roles := [] }
      (by decide)).2.2.1 rfl

/-- C2 counterexample: `venue_type_mapping` is indexed with `[]`, not
`.get`, so a first publication type outside the table — `"Dataset"` is a
value the API actually serves — raises `KeyError` instead of producing
`Venue.type = unknown`: the whole conversion fails. -/
theorem c2_counterexample :
    venue_type_of (some ["Dataset"]) = none ∧
    venue_type_of (some ["Dataset"]) ≠ some VenueType.unknown ∧
    wrap_paper ⟨"p2", [], "T", none, "V", some ["Dataset"], none, none,
      none, 0, none, []⟩ = none := by
  decide

/-- C2 amended: the first entry of `publicationTypes` is mapped through
the closed table; an absent/null/empty list or a falsy first entry maps
to `unknown` via the `"_"` sentinel; but a truthy first entry that is not
a key of the table makes the lookup fail (a `KeyError`, so the conversion
raises) instead of producing `unknown`. -/
theorem c2_venue_type (d : SSPaperRecord) (p : Paper) :
    (∀ rest, venue_type_of (some ("JournalArticle" :: rest)) =
      some VenueType.journal) ∧
    (∀ rest, venue_type_of (some ("Conference" :: rest)) =
      some VenueType.conference) ∧
    (∀ rest, venue_type_of (some ("Book" :: rest)) = some VenueType.book) ∧
    (∀ rest, venue_type_of (some ("Review" :: rest)) =
      some VenueType.review) ∧
    venue_type_of none = some VenueType.unknown ∧
    venue_type_of (some []) = some VenueType.unknown ∧
    (∀ rest, venue_type_of (some ("" :: rest)) = some VenueType.unknown) ∧
    (∀ f rest, f ≠ "" → venue_type_mapping.lookup f = none →
      venue_type_of (some (f :: rest)) = none) ∧
    (wrap_paper d = some p →
      ∀ r ∈ p.releases, venue_type_of d.publicationTypes = some r.venue.type) ∧
    (venue_type_of d.publicationTypes = none → wrap_paper d = none) := by
  refine ⟨fun rest => rfl, fun rest => rfl, fun rest => rfl, fun rest => rfl,
    rfl, rfl, fun rest => rfl, ?_, ?_, ?_⟩
  · intro f rest hne hlk
    simp [venue_type_of, pubt_key, hne, hlk]
  · intro h r hr
    obtain ⟨authors, vt, -, hV, rfl⟩ := wrap_paper_shape d p h
    simp at hr
    rw [hr, hV]
  · intro hV
    cases hA : wrap_authors d.authors with
    | none => simp [wrap_paper, hA]
    | some authors => simp [wrap_paper, hA, hV]

/-- C2 witness: the amended behavior at concrete inputs — a mapped first
entry, the sentinel cases, and a failing unmapped entry. -/
theorem c2_venue_type_witness :
    venue_type_of (some ["Book", "Conference"]) = some VenueType.book ∧
    venue_type_of (some []) = some VenueType.unknown ∧
    venue_type_of (some ["Editorial"]) = none ∧
    wrap_paper ⟨"p2w", [], "T", none, "V", some ["Editorial"], none, none,
      none, 0, none, []⟩ = none := by
  have h := c2_venue_type
    ⟨"p2w", [], "T", none, "V", some ["Editorial"], none, none, none, 0,
      none, []⟩
    { links := [], authors := [], title := "", abstract := "",
      citation_count := 0, topics := [], releases := [], scrapers := [] }
  have hun := h.2.2.2.2.2.2.2.1 "Editorial" [] (by decide) (by decide)
  exact ⟨h.2.2.1 ["Conference"], h.2.2.2.2.2.1, hun,
    h.2.2.2.2.2.2.2.2.2 hun⟩

/-- C4 counterexample: `publicationDate` is tested for truthiness, not
null-ness, so a record carrying the non-null string `""` falls through to
the year branch: the produced release has year precision, not day
precision with the time pinned to midnight. -/
theorem c4_counterexample :
    ((wrap_paper ⟨"p4", [], "T", none, "V", some ["Book"], some "",
        some 2019, none, 0, none, []⟩).map
      (fun p => p.releases.map (fun r => (r.date, r.date_precision)))) =
      some [(some "2019", DatePrecision.year)] ∧
    DatePrecision.year ≠ DatePrecision.day := by
  decide

/-- C4 amended: a non-null, non-empty `publicationDate` gives day
precision with the time pinned to midnight; a null (or empty, which the
truthiness test treats like null) `publicationDate` falls back to
year-only precision derived from `year`, and to unknown precision with a
null date when `year` is itself null. -/
theorem c4_dates (d : SSPaperRecord) (p : Paper)
    (h : wrap_paper d = some p) :
    ∀ r ∈ p.releases,
      (∀ s, d.publicationDate = some s → s ≠ "" →
        r.date = some (s ++ " 00:00") ∧
        r.date_precision = DatePrecision.day) ∧
      (d.publicationDate = none ∨ d.publicationDate = some "" →
        (∀ y, d.year = some y →
          r.date = some (toString y) ∧
          r.date_precision = DatePrecision.year) ∧
        (d.year = none →
          r.date = none ∧ r.date_precision = DatePrecision.unknown)) := by
  obtain ⟨authors, vt, -, -, rfl⟩ := wrap_paper_shape d p h
  intro r hr
  simp at hr
  subst hr
  constructor
  · intro s hs hne
    simp [date_of, hs, hne]
  · intro hpd
    constructor
    · intro y hy
      rcases hpd with hpd | hpd <;>
        simp [date_of, assimilate_date, hpd, hy]
    · intro hy
      rcases hpd with hpd | hpd <;>
        simp [date_of, assimilate_date, hpd, hy]

/-- C4 witness: `publicationDate = "2020-05-01"` yields day precision and
the date `2020-05-01 00:00`; a null `publicationDate` with `year = 2019`
yields year precision. -/
theorem c4_dates_witness :
    (({ venue := ⟨VenueType.book, "V", none, []⟩
        date := some "2020-05-01 00:00"
        date_precision := DatePrecision.day } : Release).date =
      some ("2020-05-01" ++ " 00:00") ∧
     ({ venue := ⟨VenueType.book, "V", none, []⟩
        date := some "2020-05-01 00:00"
        date_precision := DatePrecision.day } : Release).date_precision =
      DatePrecision.day) ∧
    (({ venue := ⟨VenueType.book, "V", none, []⟩
        date := some "2019"
        date_precision := DatePrecision.year } : Release).date =
      some (toString (2019 : Int)) ∧
     ({ venue := ⟨VenueType.book, "V", none, []⟩
        date := some "2019"
        date_precision := DatePrecision.year } : Release).date_precision =
      DatePrecision.year) := by
  constructor
  · exact (c4_dates
      ⟨"p4a", [], "T", none, "V", some ["Book"], some "2020-05-01", none,
        none, 0, none, []⟩
      { links := [⟨"semantic_scholar", "p4a"⟩], authors := [], title := "T",
        abstract := "", citation_count := 0, topics := [],
        releases := [{ venue := ⟨VenueType.book, "V", none, []⟩
                       date := some "2020-05-01 00:00"
                       date_precision := DatePrecision.day }],
        scrapers := ["ssch"] }
      (by decide)
      { venue := ⟨VenueType.book, "V", none, []⟩
        date := some "2020-05-01 00:00"
        date_precision := DatePrecision.day }
      (by decide)).1 "2020-05-01" rfl (by decide)
  · exact ((c4_dates
      ⟨"p4b", [], "T", none, "V", some ["Book"], none, some 2019, none, 0,
        none, []⟩
      { links := [⟨"semantic_scholar", "p4b"⟩], authors := [], title := "T",
        abstract := "", citation_count := 0, topics := [],
        releases := [{ venue := ⟨VenueType.book, "V", none, []⟩
                       date := some "2019"
                       date_precision := DatePrecision.year }],
        scrapers := ["ssch"] }
      (by decide)
      { venue := ⟨VenueType.book, "V", none, []⟩
        date := some "2019"
        date_precision := DatePrecision.year }
      (by decide)).2 (Or.inl rfl)).1 2019 rfl

/-- Shared helper: once the cursor has reached `limit`, `_list` issues no
request and yields nothing. -/
theorem listRun_of_le {α : Type} (limit o : Nat)
    (responses : List (SSResponse α)) (h : limit ≤ o) :
    listRun limit responses o = ⟨[], [], none⟩ := by
  cases responses with
  | nil => rfl
  | cons r rest => simp [listRun, Nat.not_lt.mpr h]

/-- Shared helper: every request `_list` issues carries an offset below
`limit`. -/
theorem listRun_offsets_lt {α : Type} (limit : Nat) :
    ∀ (responses : List (SSResponse α)) (o : Nat),
      ∀ x ∈ (listRun limit responses o).offsets, x < limit := by
  intro responses
  induction responses with
  | nil => intro o x hx; simp [listRun] at hx
  | cons r rest ih =>
    intro o x hx
    by_cases ho : o < limit
    · rw [listRun, if_pos ho] at hx
      cases herr : r.error with
      | some msg => simp [herr] at hx; omega
      | none =>
        cases hn : r.next with
        | none => simp [herr, hn] at hx; omega
        | some n =>
          simp [herr, hn] at hx
          rcases hx with hx | hx
          · omega
          · exact ih n x hx
    · rw [listRun, if_neg ho] at hx
      simp at hx

/-- Shared helper: against an honest server trace (each page holds at most
`L` records and advances `next` by the number returned), a `_list` run
starting below `limit` yields fewer than `limit + L - o` records. -/
theorem listRun_honest_len {α : Type} (L limit : Nat) :
    ∀ (responses : List (SSResponse α)) (o : Nat),
      honest L o responses → o < limit →
      (listRun limit responses o).yielded.length + o < limit + L := by
  intro responses
  induction responses with
  | nil =>
    intro o _ ho
    simp [listRun]
    omega
  | cons r rest ih =>
    intro o hh ho
    rw [honest] at hh
    obtain ⟨herr, hlen, hnext⟩ := hh
    rw [listRun, if_pos ho]
    cases hn : r.next with
    | none =>
      simp [herr, hn]
      omega
    | some n =>
      obtain ⟨hne, hrest⟩ := hnext n hn
      by_cases hnl : n < limit
      · have hbound := ih n hrest hnl
        simp [herr]
        omega
      · have hstop := listRun_of_le limit n rest (Nat.not_lt.mp hnl)
        simp [herr, hstop]
        omega

/-- C1 counterexample: with `block_size = 2` and `limit = 5`, an honest
server serving two records per page (exactly the requested page limit
`pageLimit 2 5 = 2`, with `next = offset + 2` each time) makes `_list`
yield 6 records — the total yielded exceeds `limit`, because the loop
stops only once the cursor itself reaches `limit`; the third request is
also issued with page limit 2 although only 1 record of budget remains. -/
theorem c1_counterexample :
    pageLimit 2 5 = 2 ∧
    (listRun 5 [⟨none, [1, 2], some 2⟩, ⟨none, [3, 4], some 4⟩,
        ⟨none, [5, 6], some 6⟩] 0).yielded.length = 6 ∧
    ¬ (listRun 5 [⟨none, [1, 2], some 2⟩, ⟨none, [3, 4], some 4⟩,
        ⟨none, [5, 6], some 6⟩] 0).yielded.length ≤ 5 ∧
    (listRun 5 [⟨none, [1, 2], some 2⟩, ⟨none, [3, 4], some 4⟩,
        ⟨none, [5, 6], some 6⟩] 0).offsets = [0, 2, 4] := by
  decide

/-- C1 amended: the per-page request parameter is the constant
`min(block_size or 10000, limit)` — never above `limit`, though it can
exceed the remaining budget — and every request offset stays below
`limit`; against an honest server (at most one page-limit of records per
page, `next` advanced by the count returned) the total yielded is at most
`limit + pageLimit - 1`, so it can overshoot `limit` by up to one page;
iteration terminates in the call in which the server's `next` is
absent/null or is `≥ limit`, not when the yielded count reaches `limit`. -/
theorem c1_pagination (block_size limit : Nat)
    (responses : List (SSResponse Nat)) :
    pageLimit block_size limit ≤ limit ∧
    (∀ x ∈ (listRun limit responses 0).offsets, x < limit) ∧
    (honest (pageLimit block_size limit) 0 responses →
      (listRun limit responses 0).yielded.length ≤
        limit + pageLimit block_size limit - 1) ∧
    (∀ (r : SSResponse Nat) (rest : List (SSResponse Nat)) (o : Nat),
      o < limit → r.error = none →
      (r.next = none → listRun limit (r :: rest) o = ⟨r.data, [o], none⟩) ∧
      (∀ n, r.next = some n → limit ≤ n →
        listRun limit (r :: rest) o = ⟨r.data, [o], none⟩)) := by
  refine ⟨Nat.min_le_right _ _, listRun_offsets_lt limit responses 0,
    ?_, ?_⟩
  · intro hh
    rcases Nat.eq_zero_or_pos limit with hl | hl
    · subst hl
      rw [listRun_of_le 0 0 responses (Nat.le_refl 0)]
      simp
    · have := listRun_honest_len (pageLimit block_size limit) limit
        responses 0 hh hl
      omega
  · intro r rest o ho herr
    constructor
    · intro hn
      simp [listRun, ho, herr, hn]
    · intro n hn hln
      rw [listRun, if_pos ho]
      simp [herr, hn, listRun_of_le limit n rest hln]

/-- C1 witness: the amended bound and termination at concrete inputs
(`block_size = 2`, `limit = 5`, two honest pages then a null `next`). -/
theorem c1_pagination_witness :
    (listRun 5 [⟨none, [1, 2], some 2⟩, ⟨none, [3], none⟩] 0).yielded.length ≤
      5 + pageLimit 2 5 - 1 ∧
    listRun 5 [⟨none, [7], none⟩] 3 = ⟨[7], [3], none⟩ ∧
    listRun 5 [⟨none, [8, 9], some 6⟩] 4 = ⟨[8, 9], [4], none⟩ := by
  refine ⟨(c1_pagination 2 5 [⟨none, [1, 2], some 2⟩, ⟨none, [3], none⟩]).2.2.1
      ?_, ?_, ?_⟩
  · rw [honest]
    refine ⟨rfl, by decide, ?_⟩
    intro n hn
    cases hn
    refine ⟨by decide, ?_⟩
    rw [honest]
    exact ⟨rfl, by decide, fun n hn => by cases hn⟩
  · exact ((c1_pagination 2 5 []).2.2.2 ⟨none, [7], none⟩ [] 3 (by decide)
      rfl).1 rfl
  · exact ((c1_pagination 2 5 []).2.2.2 ⟨none, [8, 9], some 6⟩ [] 4
      (by decide) rfl).2 6 rfl (by decide)

/-- C3: a page whose parsed body has an `error` field fails the call at
once with a `QueryError` carrying the server's message — that page yields
no record, no later request is issued — while records yielded from
earlier pages remain with the caller. -/
theorem c3_query_error (limit o : Nat) (bad : SSResponse Nat)
    (rest : List (SSResponse Nat)) (msg : String)
    (ho : o < limit) (hbad : bad.error = some msg) :
    listRun limit (bad :: rest) o = ⟨[], [o], some msg⟩ ∧
    (∀ good : SSResponse Nat, good.error = none → good.next = some o →
      0 < limit →
      listRun limit (good :: bad :: rest) 0 =
        ⟨good.data, [0, o], some msg⟩) := by
  have h1 : listRun limit (bad :: rest) o = ⟨[], [o], some msg⟩ := by
    simp [listRun, ho, hbad]
  refine ⟨h1, ?_⟩
  intro good hg hn h0
  rw [listRun, if_pos h0]
  simp [hg, hn, h1]

/-- C3 witness: a `"rate limit exceeded"` error on page 2 of a two-page
query — page 1's records stay yielded, exactly two requests were issued,
and the error message is surfaced. -/
theorem c3_query_error_witness :
    listRun 10 [(⟨some "rate limit exceeded", [], none⟩ : SSResponse Nat)] 3 =
      ⟨[], [3], some "rate limit exceeded"⟩ ∧
    listRun 10 [⟨none, [1, 2, 3], some 3⟩,
        ⟨some "rate limit exceeded", [], none⟩] 0 =
      ⟨[1, 2, 3], [0, 3], some "rate limit exceeded"⟩ := by
  have h := c3_query_error 10 3 ⟨some "rate limit exceeded", [], none⟩ []
    "rate limit exceeded" (by decide) rfl
  exact ⟨h.1, h.2 ⟨none, [1, 2, 3], some 3⟩ rfl rfl (by decide)⟩

/-- C7: `paper_references` and `paper_citations` are extensionally equal —
identical remote path `paper/{paper_id}/citations` and identical field
sets (`PAPER_REFERENCES_FIELDS = PAPER_CITATIONS_FIELDS`), hence equal
functions. -/
theorem c7_references_eq_citations :
    @paper_references = @paper_citations ∧
    PAPER_REFERENCES_FIELDS = PAPER_CITATIONS_FIELDS ∧
    (∀ pid : String,
      (paper_references (α := Nat) pid 100 10000 []).1.path =
        "paper/" ++ pid ++ "/citations" ∧
      (paper_citations (α := Nat) pid 100 10000 []).1.path =
        "paper/" ++ pid ++ "/citations") :=
  ⟨rfl, rfl, fun _ => ⟨rfl, rfl⟩⟩

/-- C8: supplying both a non-empty author term and a non-empty title term
makes `query` raise `QueryError("Cannot query both author and title")`
before the manager — and with it the connection — is constructed; no
request path is ever touched. -/
theorem c8_usage_error (author title : List String)
    (ha : String.intercalate " " author ≠ "")
    (ht : String.intercalate " " title ≠ "") :
    query author title =
      ⟨some "Cannot query both author and title", false, []⟩ := by
  rw [query]
  simp only [if_pos (And.intro ha ht)]

/-- C8 witness: `query ["a"] ["t"]` raises the usage error with the
connection never constructed. -/
theorem c8_usage_error_witness :
    query ["a"] ["t"] =
      ⟨some "Cannot query both author and title", false, []⟩ :=
  c8_usage_error ["a"] ["t"] (by decide) (by decide)

/-- C10: the configured inter-request delay is `5 * 60 / 100 = 3` seconds
exactly, and under the spec's blocking gate every two successive request
issuance times are at least that delay apart. -/
theorem c10_rate_limit (readies : List ℚ) :
    configured_delay = 3 ∧
    List.Chain' (fun a b => a + configured_delay ≤ b)
      (issueTimes configured_delay readies) := by
  have hchain : ∀ (rs : List ℚ) (last : ℚ),
      List.Chain (fun a b => a + configured_delay ≤ b) last
        (issueTimesFrom configured_delay last rs) := by
    intro rs
    induction rs with
    | nil => intro last; exact List.Chain.nil
    | cons r rs ih =>
      intro last
      rw [issueTimesFrom]
      exact List.Chain.cons (le_max_right r (last + configured_delay))
        (ih (max r (last + configured_delay)))
  refine ⟨by norm_num [configured_delay], ?_⟩
  cases readies with
  | nil => exact trivial
  | cons r rs => exact hchain rs r

end SemScholar
